import Mathlib

/-!
Verification of the TDL-to-Motion-Plan compiler (NLTDL repository).

Shallow embedding of:
  * `src/motion_planner/ik_solver.py` — `parse_tdl_pose`, `convert_tdl_to_meters`
  * `src/job_converter/tdl_parser.py` — `TDLParser.parse` and helpers
  * `src/motion_planner/trajectory_planner.py` — interpolation, joint-limit
    checking, trapezoidal duration, joint/linear trajectory synthesis
  * `src/motion_planner/tdl_motion_planner.py` — the sequential command
    planner threading the joint-configuration cursor

Numeric values carried by the Python code (floats) are modelled as rationals
(`ℚ`) inside the executable pipeline; `math.sqrt` (resp. `np.linalg.norm`'s
square root) is injected as a capability `sqrt : α → α`, and the duration law
is stated over `ℝ` with `Real.sqrt` where the specification's exact values
are at stake.  Python exceptions (ZeroDivisionError, ValueError on `float()`,
TypeError on non-numeric arithmetic, AttributeError on non-string
`.startswith`, IndexError on `[-1]` of an empty list) are modelled with an
`Except PyErr` monad; `return None` paths of the source map to `.ok none`.
External pybullet facilities (forward/inverse kinematics, collision queries,
robot joint limits) are injected capabilities, as §6 of the spec mandates.
-/

/-- Python exception kinds that the embedded code can raise. -/
inductive PyErr where
  | zeroDivisionError
  | valueError
  | typeError
  | attributeError
  | indexError
deriving DecidableEq, Repr, Inhabited

/-- Python whitespace as recognised by `str.strip()` / regex `\s`
(space, tab, newline, carriage return, vertical tab, form feed). -/
def isPySpace (c : Char) : Bool :=
  c = ' ' ∨ c = '\t' ∨ c = '\n' ∨ c = '\r' ∨ c = Char.ofNat 11 ∨ c = Char.ofNat 12

/-- Regex `\w` word characters (ASCII model): letters, digits, underscore. -/
def isWordChar (c : Char) : Bool :=
  ('a' ≤ c ∧ c ≤ 'z') ∨ ('A' ≤ c ∧ c ≤ 'Z') ∨ ('0' ≤ c ∧ c ≤ '9') ∨ c = Char.ofNat 95

/-- Python `str.strip()` on a character list: drop leading and trailing whitespace. -/
def pyStrip (cs : List Char) : List Char :=
  ((cs.dropWhile isPySpace).reverse.dropWhile isPySpace).reverse

/-- `str.strip('"\'')`: drop leading and trailing double/single quotes. -/
def isQuoteChar (c : Char) : Bool :=
  c = Char.ofNat 34 ∨ c = Char.ofNat 39

/-- Python `value.strip('"\'')`. -/
def stripQuotes (cs : List Char) : List Char :=
  ((cs.dropWhile isQuoteChar).reverse.dropWhile isQuoteChar).reverse

/-- ASCII decimal digits to a natural number (most significant first). -/
def digitsToNat (cs : List Char) : ℕ :=
  cs.foldl (fun a c => 10 * a + (c.toNat - 48)) 0

/-- Parse the (already stripped) body of a Python `float()` literal:
optional sign, integer digits, optional fraction, optional exponent.
(`inf`/`nan` spellings and digit underscores are not modelled.) -/
def parseFloatCore (cs : List Char) : Option ℚ :=
  let (sgn, r1) : ℚ × List Char :=
    match cs with
    | '+' :: r => (1, r)
    | '-' :: r => (-1, r)
    | r => (1, r)
  let (d1, r2) := r1.span Char.isDigit
  let (d2, r3) : List Char × List Char :=
    match r2 with
    | '.' :: r => r.span Char.isDigit
    | r => ([], r)
  if d1 = [] ∧ d2 = [] then none
  else
    let mantissa : ℚ := (digitsToNat d1 : ℚ) + (digitsToNat d2 : ℚ) / (10 : ℚ) ^ d2.length
    match r3 with
    | [] => some (sgn * mantissa)
    | 'e' :: r4 =>
      let (esgn, r5) : ℤ × List Char :=
        match r4 with
        | '+' :: r => (1, r)
        | '-' :: r => (-1, r)
        | r => (1, r)
      let (ed, r6) := r5.span Char.isDigit
      if ed = [] ∨ r6 ≠ [] then none
      else some (sgn * mantissa * (10 : ℚ) ^ (esgn * (digitsToNat ed : ℤ)))
    | 'E' :: r4 =>
      let (esgn, r5) : ℤ × List Char :=
        match r4 with
        | '+' :: r => (1, r)
        | '-' :: r => (-1, r)
        | r => (1, r)
      let (ed, r6) := r5.span Char.isDigit
      if ed = [] ∨ r6 ≠ [] then none
      else some (sgn * mantissa * (10 : ℚ) ^ (esgn * (digitsToNat ed : ℤ)))
    | _ => none

/-- Python `float(s)`: strips surrounding whitespace, then parses; `none`
models a raised `ValueError`. -/
def pyFloat (cs : List Char) : Option ℚ :=
  parseFloatCore (pyStrip cs)

/-- Split a character list on a separator character (Python
`str.split(sep)` semantics: splitting the empty string yields `[[]]`). -/
def splitOnChar (sep : Char) : List Char → List (List Char)
  | [] => [[]]
  | c :: cs =>
    match splitOnChar sep cs with
    | [] => if c = sep then [[], []] else [[c]]
    | p :: ps => if c = sep then [] :: p :: ps else (c :: p) :: ps

/-- `[float(c.strip()) for c in coords_str.split(',')]`; `none` models the
`ValueError` raised by `float()` on an unparseable component. -/
def pyFloatList (cs : List Char) : Option (List ℚ) :=
  (splitOnChar ',' cs).mapM pyFloat

/-- A parsed TDL pose (the dictionaries produced by `parse_tdl_pose`):
Cartesian `{'type': 'cartesian', 'position': …, 'orientation': …}` or
joint `{'type': 'joint', 'joints': …}`. -/
inductive TDLPose (α : Type) where
  | cartesian (position orientation : List α)
  | joint (joints : List α)
deriving DecidableEq, Repr, Inhabited

/-- Map a function over all numeric components of a pose. -/
def TDLPose.map {α β : Type} (f : α → β) : TDLPose α → TDLPose β
  | .cartesian pos orn => .cartesian (pos.map f) (orn.map f)
  | .joint js => .joint (js.map f)

/-- Scan the characters following `Ctor(`, collecting group 1 of the regex
`Ctor\((.*?)\)`: everything up to the first `)`; `.` does not match a
newline, so a newline before the `)` kills the match at this position. -/
def scanInner : List Char → Option (List Char)
  | [] => none
  | c :: cs =>
    if c = ')' then some []
    else if c = '\n' then none
    else (scanInner cs).map (c :: ·)

/-- `re.search(r'Ctor\((.*?)\)', s)` for a fixed constructor name `ctor`
(`PosX` or `PosJ`): find the leftmost position where the pattern matches and
return the captured group. -/
def reSearchGroup (ctor : List Char) : List Char → Option (List Char)
  | [] => none
  | s@(_ :: rest) =>
    match if (ctor ++ ['(']).isPrefixOf s then scanInner (s.drop (ctor.length + 1)) else none with
    | some inner => some inner
    | none => reSearchGroup ctor rest

/-- Embedding of `parse_tdl_pose` (src/motion_planner/ik_solver.py).
`.ok none` is the source's `return None`; `.error .valueError` is the
uncaught `ValueError` from `float()` on a malformed component. -/
def parse_tdl_pose (s : String) : Except PyErr (Option (TDLPose ℚ)) :=
  if ("PosX(".toList).isPrefixOf s.toList then
    match reSearchGroup "PosX".toList s.toList with
    | some inner =>
      match pyFloatList inner with
      | some coords =>
        .ok (some (.cartesian (coords.take 3)
          (if 6 ≤ coords.length then (coords.drop 3).take 3 else [0, 0, 0])))
      | none => .error .valueError
    | none => .ok none
  else if ("PosJ(".toList).isPrefixOf s.toList then
    match reSearchGroup "PosJ".toList s.toList with
    | some inner =>
      match pyFloatList inner with
      | some coords => .ok (some (.joint coords))
      | none => .error .valueError
    | none => .ok none
  else .ok none

/-- Embedding of `convert_tdl_to_meters` (src/motion_planner/ik_solver.py).
`pi` injects the value of `math.pi` (`math.radians o = o * pi / 180`);
positions are divided by 1000 (mm to m). -/
def convert_tdl_to_meters {α : Type} [Field α] (pi : α) : TDLPose α → TDLPose α
  | .cartesian pos orn =>
      .cartesian (pos.map fun p => p / 1000) (orn.map fun o => o * (pi / 180))
  | .joint js => .joint (js.map fun j => j * (pi / 180))

/-- The exact rational value of the IEEE-754 double `math.pi`. -/
def mathpi : ℚ := 884279719003555 / 281474976710656

/-!
## DSL parser (src/job_converter/tdl_parser.py)

Lines are processed as character lists; `String` values are produced only
for stored names/values.  Python dicts are modelled as association lists in
which insertion overwrites an existing key in place.
-/

/-- A dynamically typed Python value as produced by `_parse_arguments`
(int, float, bool, or str — pose/tuple literals are kept as strings). -/
inductive TDLValue where
  | int (n : ℤ)
  | float (q : ℚ)
  | bool (b : Bool)
  | str (s : String)
deriving DecidableEq, Repr, Inhabited

/-- Numeric view of a Python value: ints and floats are numbers, bools
coerce (`True == 1`), strings are not numbers (arithmetic on them raises
`TypeError`). -/
def TDLValue.toNum : TDLValue → Option ℚ
  | .int n => some (n : ℚ)
  | .float q => some q
  | .bool b => some (if b then 1 else 0)
  | .str _ => none

/-- Embedding of the `TDLCommand` dataclass. -/
structure TDLCommand where
  command_type : String
  args : List (String × TDLValue)
  raw_line : String
deriving DecidableEq, Repr, Inhabited

/-- Embedding of the `TDLGoal` dataclass. -/
structure TDLGoal where
  name : String
  commands : List TDLCommand
deriving DecidableEq, Repr, Inhabited

/-- Embedding of the `TDLProgram` dataclass. -/
structure TDLProgram where
  goals : List TDLGoal
  definitions : List (String × String)
deriving DecidableEq, Repr, Inhabited

/-- Python dict assignment `d[k] = v`: overwrite in place or append. -/
def dictInsert {β : Type} (k : String) (v : β) : List (String × β) → List (String × β)
  | [] => [(k, v)]
  | (k', v') :: rest => if k' = k then (k, v) :: rest else (k', v') :: dictInsert k v rest

/-- Python `d.get(k, default)`. -/
def dictGetD {β : Type} (d : List (String × β)) (k : String) (default : β) : β :=
  match d.lookup k with
  | some v => v
  | none => default

/-- Python `str.replace(pat, '')` (all occurrences, left to right) with a
nonempty pattern; the fuel (`length + 1` at the call sites is exact) bounds
the scan. -/
def replaceAllFuel (pat : List Char) : ℕ → List Char → List Char
  | 0, s => s
  | _, [] => []
  | fuel + 1, s@(c :: rest) =>
    if pat ≠ [] ∧ pat.isPrefixOf s then replaceAllFuel pat fuel (s.drop pat.length)
    else c :: replaceAllFuel pat fuel rest

/-- Python `str.replace(pat, '')`. -/
def replaceAllCL (pat : List Char) (s : List Char) : List Char :=
  replaceAllFuel pat (s.length + 1) s

/-- ASCII `str.lower()`. -/
def pyLower (cs : List Char) : List Char :=
  cs.map Char.toLower

/-- `re.match(r'GOAL\s+(\w+)\s*\(\s*\)', line)`: returns the captured goal
name when the (stripped) line is a well-formed GOAL header. -/
def matchGoalHeader (l : List Char) : Option String :=
  match l with
  | 'G' :: 'O' :: 'A' :: 'L' :: rest =>
    let (sp, r1) := rest.span isPySpace
    if sp = [] then none
    else
      let (w, r2) := r1.span isWordChar
      if w = [] then none
      else
        match r2.dropWhile isPySpace with
        | '(' :: r3 =>
          match r3.dropWhile isPySpace with
          | ')' :: _ => some ⟨w⟩
          | _ => none
        | _ => none
  | _ => none

/-- Value part of `re.match(r'DEFINE\s+(\w+)\s*=\s*(.+?);', …)`: the lazy
`(.+?)` captures up to the first `;` lying at index ≥ 1 after the greedy
`\s*`; if only a `;` immediately follows, the engine backtracks one space
into the capture (which the subsequent `.strip()` erases again). -/
def lazyUpToSemi (r : List Char) : Option (List Char) :=
  let k := (r.takeWhile isPySpace).length
  let r' := r.dropWhile isPySpace
  match r' with
  | [] => none
  | c :: rest =>
    if (rest.any (· = ';')) then some (c :: rest.takeWhile (· ≠ ';'))
    else if 0 < k ∧ c = ';' then some []
    else none

/-- The definitions-dict update performed by `TDLParser._parse_define`:
on a regex match, store the (stripped) value under the captured name. -/
def parse_define_defs (line : List Char) (defs : List (String × String)) :
    List (String × String) :=
  match line with
  | 'D' :: 'E' :: 'F' :: 'I' :: 'N' :: 'E' :: rest =>
    let (sp, r1) := rest.span isPySpace
    if sp = [] then defs
    else
      let (w, r2) := r1.span isWordChar
      if w = [] then defs
      else
        match r2.dropWhile isPySpace with
        | '=' :: r4 =>
          match lazyUpToSemi r4 with
          | some v => dictInsert ⟨w⟩ ⟨pyStrip v⟩ defs
          | none => defs
        | _ => defs
  | _ => defs

/-- Embedding of `TDLParser._parse_define` (mutates only
`program.definitions`). -/
def parse_define (line : List Char) (program : TDLProgram) : TDLProgram :=
  { program with definitions := parse_define_defs line program.definitions }

/-- Branch `Pos[XJ]\([^)]+\)` of the argument-value regex: a whole pose
constructor (whose inner commas must not split arguments); returns the
matched text and the remainder. -/
def matchPosVal (cs : List Char) : Option (List Char × List Char) :=
  match cs with
  | 'P' :: 'o' :: 's' :: c :: '(' :: r =>
    if c = 'X' ∨ c = 'J' then
      let (inner, r2) := r.span (· ≠ ')')
      if inner = [] then none
      else
        match r2 with
        | ')' :: rest => some ('P' :: 'o' :: 's' :: c :: '(' :: (inner ++ [')']), rest)
        | _ => none
    else none
  | _ => none

/-- One attempted match of `(\w+)\s*=\s*((?:Pos[XJ]\([^)]+\)|[^,]+))` at the
current position: key, raw value, and the remainder after the match. -/
def tryMatchArgAt (cs : List Char) : Option (String × List Char × List Char) :=
  let (w, r1) := cs.span isWordChar
  if w = [] then none
  else
    match r1.dropWhile isPySpace with
    | '=' :: r3 =>
      let r4 := r3.dropWhile isPySpace
      match matchPosVal r4 with
      | some (v, rest) => some (⟨w⟩, v, rest)
      | none =>
        let (v, rest) := r4.span (· ≠ ',')
        if v = [] then none else some (⟨w⟩, v, rest)
    | _ => none

/-- `re.findall` of the argument pattern: scan left to right, resuming
after each match (fuel bounds the scan; `length + 1` fuel is exact). -/
def findAllArgs : ℕ → List Char → List (String × List Char)
  | 0, _ => []
  | _, [] => []
  | fuel + 1, cs@(_ :: rest) =>
    match tryMatchArgAt cs with
    | some (k, v, r) => (k, v) :: findAllArgs fuel r
    | none => findAllArgs fuel rest

/-- Opportunistic typing of one argument value (already stripped):
pose constructors and tuples stay strings, then int, float, bool, and the
quote-stripped string fallback — in the source's branch order. -/
def classifyValue (v : List Char) : TDLValue :=
  if ("PosX(".toList).isPrefixOf v ∨ ("PosJ(".toList).isPrefixOf v then .str ⟨v⟩
  else if v.head? = some '(' ∧ v.getLast? = some ')' then .str ⟨v⟩
  else if v ≠ [] ∧ v.all Char.isDigit then .int (digitsToNat v)
  else
    match pyFloat v with
    | some q => .float q
    | none =>
      if pyLower v = "true".toList then .bool true
      else if pyLower v = "false".toList then .bool false
      else .str ⟨stripQuotes v⟩

/-- Embedding of `TDLParser._parse_arguments`. -/
def parse_arguments (args_str : List Char) : List (String × TDLValue) :=
  if pyStrip args_str = [] then []
  else
    (findAllArgs (args_str.length + 1) args_str).foldl
      (fun d kv => dictInsert kv.1 (classifyValue (pyStrip kv.2)) d) []

/-- Greedy `(.*)\)` tail of the SPAWN command regex: everything before the
last `)`; `none` if there is no `)`. -/
def lastParenSplit (cs : List Char) : Option (List Char) :=
  match cs.reverse.dropWhile (· ≠ ')') with
  | [] => none
  | _ :: revPre => some revPre.reverse

/-- Embedding of `TDLParser._parse_spawn_command`. -/
def parse_spawn_command (line : List Char) : Option TDLCommand :=
  let l := pyStrip (replaceAllCL [';'] (replaceAllCL "WITH WAIT".toList (replaceAllCL "SPAWN".toList line)))
  let (w, r1) := l.span isWordChar
  if w = [] then none
  else
    match r1.dropWhile isPySpace with
    | '(' :: r3 =>
      match lastParenSplit r3 with
      | some args_str => some ⟨⟨w⟩, parse_arguments args_str, ⟨l⟩⟩
      | none => none
    | _ => none

/-- Append a parsed command to the current (most recently declared) goal —
the source mutates the `TDLGoal` object also referenced from
`program.goals`, which is always its last element. -/
def append_to_last (st : TDLProgram) (c : TDLCommand) : TDLProgram :=
  match st.goals.getLast? with
  | none => st
  | some g =>
    { st with goals := st.goals.dropLast ++ [{ g with commands := g.commands ++ [c] }] }

/-- The line loop of `TDLParser.parse`.  `current_goal` is `None` until the
first well-formed GOAL header and afterwards always points at the last
element of `program.goals` (it is never reset, not even at `}`). -/
def parseLines (st : TDLProgram) : List (List Char) → TDLProgram
  | [] => st
  | l :: ls =>
    let line := pyStrip l
    if line = [] ∨ (['/', '/'].isPrefixOf line) ∨ (['#'].isPrefixOf line) then
      parseLines st ls
    else if ("DEFINE".toList).isPrefixOf line then parseLines (parse_define line st) ls
    else if ("GOAL".toList).isPrefixOf line then
      match matchGoalHeader line with
      | some name => parseLines { st with goals := st.goals ++ [⟨name, []⟩] } ls
      | none => parseLines st ls
    else if line = [Char.ofNat 123] ∨ line = [Char.ofNat 125] then parseLines st ls
    else if ("SPAWN".toList).isPrefixOf line ∧ st.goals ≠ [] then
      match parse_spawn_command line with
      | some c => parseLines (append_to_last st c) ls
      | none => parseLines st ls
    else parseLines st ls

/-- Embedding of `TDLParser.parse`: split the content on newlines and run
the line loop on an empty program. -/
def tdl_parse (content : String) : TDLProgram :=
  parseLines ⟨[], []⟩ (splitOnChar '\n' content.toList)

/-!
## Trajectory planner (src/motion_planner/trajectory_planner.py)

The planner's pybullet-derived data (joint limits) and facilities
(collision queries, `math.sqrt`) are injected capabilities.  Waypoint
arithmetic runs in `ℚ`; the duration law is additionally stated over `ℝ`
for the specification's exact values.
-/

/-- Python float division, which raises `ZeroDivisionError` on a zero
denominator. -/
def pydiv {α : Type} [Field α] [DecidableEq α] (x y : α) : Except PyErr α :=
  if y = 0 then .error .zeroDivisionError else .ok (x / y)

/-- Embedding of `TrajectoryPlanner._calculate_duration` (trapezoidal
velocity profile).  `sqrt` injects `math.sqrt`. -/
def calculate_duration {α : Type} [LinearOrderedField α] [DecidableEq α]
    (sqrt : α → α) (distance velocity acceleration : α) : Except PyErr α := do
  let t_accel ← pydiv velocity acceleration
  let d_accel := (0.5 : α) * acceleration * t_accel ^ 2
  if 2 * d_accel < distance then
    let d_cruise := distance - 2 * d_accel
    let t_cruise ← pydiv d_cruise velocity
    return 2 * t_accel + t_cruise
  else
    let r ← pydiv distance acceleration
    return 2 * sqrt r

/-- Embedding of `TrajectoryPlanner._interpolate_joint_path`: linear
interpolation in joint space (`zip` truncates to the shorter list). -/
def interpolate_joint_path {α : Type} [Field α] (start goal : List α)
    (num_points : ℕ) : List (List α) :=
  (List.range num_points).map fun (i : ℕ) =>
    let alpha : α := if 1 < num_points then (i : α) / ((num_points : α) - 1) else 1
    start.zipWith (fun s g => s + alpha * (g - s)) goal

/-- Embedding of `TrajectoryPlanner._interpolate_cartesian_path` (same
linear rule as the joint-space interpolation). -/
def interpolate_cartesian_path {α : Type} [Field α] (start goal : List α)
    (num_points : ℕ) : List (List α) :=
  (List.range num_points).map fun (i : ℕ) =>
    let alpha : α := if 1 < num_points then (i : α) / ((num_points : α) - 1) else 1
    start.zipWith (fun s g => s + alpha * (g - s)) goal

/-- Embedding of `TrajectoryPlanner._check_joint_limits`: every joint value
must lie inside its declared `(lower, upper)` interval (`zip` truncates). -/
def check_joint_limits (joint_limits : List (ℚ × ℚ)) (joints : List ℚ) : Bool :=
  (joints.zip joint_limits).all fun jl =>
    ¬(jl.1 < jl.2.1 ∨ jl.2.2 < jl.1)

/-- The trajectory-planner object: pybullet-derived joint limits, the
collision-checking flag, and the injected collision and square-root
facilities. -/
structure TrajectoryPlanner where
  joint_limits : List (ℚ × ℚ)
  check_collisions : Bool
  is_in_collision : List ℚ → Bool
  sqrt : ℚ → ℚ

/-- A synthesized trajectory record (the dictionary returned by
`plan_joint_trajectory` / `plan_linear_trajectory`). -/
structure Traj where
  waypoints : List (List ℚ)
  duration : ℚ
  num_waypoints : ℕ
  ttype : String
  cartesian_path : Option (List (List ℚ))
deriving DecidableEq, Repr, Inhabited

/-- `max(abs(g - s) for g, s in zip(goal_joints, start_joints))`; `max()`
of an empty sequence raises `ValueError`. -/
def maxAbsDiff (goal start : List ℚ) : Except PyErr ℚ :=
  match (goal.zip start).map (fun gs => |gs.1 - gs.2|) with
  | [] => .error .valueError
  | x :: xs => .ok (xs.foldl max x)

/-- Velocity/acceleration arrive as dynamically typed Python values;
arithmetic on a non-numeric one raises `TypeError`.  This wraps
`_calculate_duration` accordingly. -/
def calculate_duration_dyn (sqrt : ℚ → ℚ) (distance : ℚ)
    (velocity acceleration : Option ℚ) : Except PyErr ℚ :=
  match velocity, acceleration with
  | some v, some a => calculate_duration sqrt distance v a
  | _, _ => .error .typeError

/-- Embedding of `TrajectoryPlanner.plan_joint_trajectory`: validate the
goal against joint limits, interpolate, optionally collision-check every
waypoint, then compute the duration over the largest per-joint delta.
`.ok none` is the source's `return None`. -/
def plan_joint_trajectory (tp : TrajectoryPlanner) (start_joints goal_joints : List ℚ)
    (velocity acceleration : Option ℚ) (num_waypoints : ℕ) : Except PyErr (Option Traj) := do
  if ¬check_joint_limits tp.joint_limits goal_joints then return none
  else
    let waypoints := interpolate_joint_path start_joints goal_joints num_waypoints
    if tp.check_collisions ∧ waypoints.any tp.is_in_collision then return none
    else
      let max_joint_diff ← maxAbsDiff goal_joints start_joints
      let duration ← calculate_duration_dyn tp.sqrt max_joint_diff velocity acceleration
      return some ⟨waypoints, duration, waypoints.length, "joint", none⟩

/-- The IK-solver object: pybullet forward/inverse kinematics as injected
capabilities (`solve_ik_from_euler` returns `none` on IK failure). -/
structure IKSolver where
  solve_ik_from_euler : List ℚ → List ℚ → List ℚ → Option (List ℚ)
  forward_kinematics : List ℚ → List ℚ × List ℚ

/-- The per-sample loop of `plan_linear_trajectory`: IK with continuity
seeding, then joint-limit and collision validation; any failure aborts the
whole trajectory (`.ok none`). -/
def ik_waypoint_loop (tp : TrajectoryPlanner) (ik : IKSolver)
    (current_joints : List ℚ) (acc : List (List ℚ)) :
    List (List ℚ × List ℚ) → Except PyErr (Option (List (List ℚ)))
  | [] => .ok (some acc)
  | (cart_pos, cart_orn) :: rest =>
    match ik.solve_ik_from_euler cart_pos cart_orn current_joints with
    | none => .ok none
    | some joint_solution =>
      if ¬check_joint_limits tp.joint_limits joint_solution then .ok none
      else if tp.check_collisions ∧ tp.is_in_collision joint_solution then .ok none
      else ik_waypoint_loop tp ik joint_solution (acc ++ [joint_solution]) rest

/-- `np.array(goal) - np.array(start)` with numpy shape rules: equal
lengths subtract elementwise, a length-1 operand broadcasts, anything else
raises. -/
def npSub (goal start : List ℚ) : Except PyErr (List ℚ) :=
  if goal.length = start.length then .ok (goal.zipWith (· - ·) start)
  else
    match goal, start with
    | [g], s => .ok (s.map fun x => g - x)
    | g, [s] => .ok (g.map fun x => x - s)
    | _, _ => .error .valueError

/-- Embedding of `TrajectoryPlanner.plan_linear_trajectory`: forward
kinematics for the start pose, independent linear interpolation of
position and orientation, IK per sample with continuity seeding, and a
trapezoidal duration over the Euclidean Cartesian distance (converted to
mm). -/
def plan_linear_trajectory (tp : TrajectoryPlanner) (ik : IKSolver)
    (start_joints : List ℚ) (goal_pos goal_orn : List ℚ)
    (velocity acceleration : Option ℚ) (num_waypoints : ℕ) : Except PyErr (Option Traj) := do
  let (start_pos, start_euler) := ik.forward_kinematics start_joints
  let cartesian_waypoints := interpolate_cartesian_path start_pos goal_pos num_waypoints
  let orientation_waypoints := interpolate_cartesian_path start_euler goal_orn num_waypoints
  match ← ik_waypoint_loop tp ik start_joints [] (cartesian_waypoints.zip orientation_waypoints) with
  | none => return none
  | some joint_waypoints =>
    let diff ← npSub goal_pos start_pos
    let distance := tp.sqrt ((diff.map (· ^ 2)).sum)
    let duration ← calculate_duration_dyn tp.sqrt (distance * 1000) velocity acceleration
    return some ⟨joint_waypoints, duration, joint_waypoints.length, "linear", some cartesian_waypoints⟩

/-!
## TDL motion planner (src/motion_planner/tdl_motion_planner.py)

`self.current_joints` is modelled as an explicitly threaded cursor value;
the definitions of the program under planning (`self.tdl_program`) are
passed to the command planners for `DEFINE` resolution.
-/

/-- One entry of a goal's trajectory list: a motion trajectory (a dict
containing `'waypoints'`) or a non-motion event record
(`{'type': 'non_motion', 'command': …, 'args': …, 'duration': …}`). -/
inductive PlanRecord where
  | motion (traj : Traj) (command : String) (target_pose : String)
  | nonMotion (command : String) (args : List (String × TDLValue)) (duration : TDLValue)
deriving DecidableEq, Repr, Inhabited

/-- Embedding of `TDLMotionPlanner._resolve_pose`. -/
def resolve_pose (defs : List (String × String)) (pose_str : String) : String :=
  match defs.lookup pose_str with
  | some v => v
  | none => pose_str

/-- Embedding of `TDLMotionPlanner._estimate_command_duration`: `Delay`
honours its (dynamically typed) duration argument, fixed estimates
otherwise. -/
def estimate_command_duration (command : TDLCommand) : TDLValue :=
  if command.command_type = "Delay" then
    dictGetD command.args "duration_sec" (dictGetD command.args "duration" (.int 0))
  else if command.command_type = "SetDigitalOutput" ∨ command.command_type = "GetDigitalInput" then
    .float (1 / 100)
  else if command.command_type = "GraspObject" ∨ command.command_type = "ReleaseObject" then
    .float (1 / 2)
  else if command.command_type = "ArcOn" ∨ command.command_type = "ArcOff" then
    .float (1 / 10)
  else .float 0

/-- Embedding of `TDLMotionPlanner._is_motion_command`. -/
def is_motion_command (command : TDLCommand) : Bool :=
  command.command_type = "MoveLinear" ∨ command.command_type = "MoveJoint" ∨
    command.command_type = "MoveCircular"

/-- `DEFINE` resolution step of `_plan_move_linear` / `_plan_move_joint`:
`pose_str in self.tdl_program.definitions` is `False` for non-string
values, which pass through unchanged. -/
def resolveTargetVal (defs : List (String × String)) : TDLValue → TDLValue
  | .str s => .str (resolve_pose defs s)
  | v => v

/-- `parse_tdl_pose(pose_str)` applied to a dynamically typed value:
`.startswith` on a non-string raises `AttributeError`. -/
def requireStr : TDLValue → Except PyErr String
  | .str s => .ok s
  | _ => .error .attributeError

/-- Embedding of `TDLMotionPlanner._plan_move_joint`. -/
def plan_move_joint (tp : TrajectoryPlanner) (ik : IKSolver)
    (defs : List (String × String)) (current_joints : List ℚ)
    (args : List (String × TDLValue)) : Except PyErr (Option PlanRecord) := do
  let velocity := dictGetD args "velocity" (.int 100)
  let acceleration := dictGetD args "acceleration" (.int 50)
  let target_pose_str ← requireStr (resolveTargetVal defs (dictGetD args "target_pose" (.str "")))
  match ← parse_tdl_pose target_pose_str with
  | none => return none
  | some pose_dict =>
    let goal_joints : Option (List ℚ) :=
      match convert_tdl_to_meters mathpi pose_dict with
      | .joint js => some js
      | .cartesian pos orn => ik.solve_ik_from_euler pos orn current_joints
    match goal_joints with
    | none => return none
    | some gj =>
      match ← plan_joint_trajectory tp current_joints gj velocity.toNum acceleration.toNum 50 with
      | none => return none
      | some t => return some (.motion t "MoveJoint" target_pose_str)

/-- Embedding of `TDLMotionPlanner._plan_move_linear` (a `PosJ` target is
redirected to `_plan_move_joint`). -/
def plan_move_linear (tp : TrajectoryPlanner) (ik : IKSolver)
    (defs : List (String × String)) (current_joints : List ℚ)
    (args : List (String × TDLValue)) : Except PyErr (Option PlanRecord) := do
  let velocity := dictGetD args "velocity" (.int 100)
  let acceleration := dictGetD args "acceleration" (.int 50)
  let target_pose_str ← requireStr (resolveTargetVal defs (dictGetD args "target_pose" (.str "")))
  match ← parse_tdl_pose target_pose_str with
  | none => return none
  | some pose_dict =>
    match convert_tdl_to_meters mathpi pose_dict with
    | .cartesian pos orn =>
      match ← plan_linear_trajectory tp ik current_joints pos orn velocity.toNum acceleration.toNum 50 with
      | none => return none
      | some t => return some (.motion t "MoveLinear" target_pose_str)
    | .joint _ => plan_move_joint tp ik defs current_joints args

/-- Embedding of `TDLMotionPlanner._plan_command`: dispatch by command
type; `MoveCircular` is unimplemented and yields `None`; every other
non-motion command produces an event record. -/
def plan_command (tp : TrajectoryPlanner) (ik : IKSolver)
    (defs : List (String × String)) (current_joints : List ℚ)
    (command : TDLCommand) : Except PyErr (Option PlanRecord) :=
  if command.command_type = "MoveLinear" then
    plan_move_linear tp ik defs current_joints command.args
  else if command.command_type = "MoveJoint" then
    plan_move_joint tp ik defs current_joints command.args
  else if command.command_type = "MoveCircular" then .ok none
  else
    .ok (some (.nonMotion command.command_type command.args (estimate_command_duration command)))

/-- The command loop of `TDLMotionPlanner._plan_goal`, threading
`self.current_joints` and accumulating the appended records;
`(none, cursor)` is the source's `return None` (Goal aborted), with the
cursor retaining the updates of the already-planned commands. -/
def plan_goal_aux (tp : TrajectoryPlanner) (ik : IKSolver)
    (defs : List (String × String)) (cursor : List ℚ)
    (acc : List (Option PlanRecord)) :
    List TDLCommand → Except PyErr (Option (List (Option PlanRecord)) × List ℚ)
  | [] => .ok (some acc, cursor)
  | command :: rest => do
    let trajectory ← plan_command tp ik defs cursor command
    if trajectory = none ∧ is_motion_command command then
      .ok (none, cursor)
    else
      let cursor' ← (match trajectory with
        | some (.motion t _ _) =>
          match t.waypoints.getLast? with
          | some w => Except.ok w
          | none => Except.error PyErr.indexError
        | _ => Except.ok cursor)
      plan_goal_aux tp ik defs cursor' (acc ++ [trajectory]) rest

/-- Embedding of `TDLMotionPlanner._plan_goal`. -/
def plan_goal (tp : TrajectoryPlanner) (ik : IKSolver)
    (defs : List (String × String)) (cursor : List ℚ) (goal : TDLGoal) :
    Except PyErr (Option (List (Option PlanRecord)) × List ℚ) :=
  plan_goal_aux tp ik defs cursor [] goal.commands

/-- `t.get('duration', 0)` summed over `if t`-filtered records; a
non-numeric `Delay` duration raises `TypeError` inside `sum`. -/
def sumDurations (recs : List (Option PlanRecord)) : Except PyErr ℚ :=
  recs.foldlM
    (fun acc r =>
      match r with
      | none => pure acc
      | some (.motion t _ _) => pure (acc + t.duration)
      | some (.nonMotion _ _ d) =>
        match d.toNum with
        | some q => pure (acc + q)
        | none => Except.error PyErr.typeError)
    0

/-- `t.get('num_waypoints', 0)` summed over `if t`-filtered records. -/
def sumWaypoints (recs : List (Option PlanRecord)) : ℕ :=
  recs.foldl
    (fun acc r =>
      match r with
      | some (.motion t _ _) => acc + t.num_waypoints
      | _ => acc)
    0

/-- One per-Goal entry of the motion plan
(`{'name', 'trajectories', 'duration', 'num_commands'}`). -/
structure GoalRecord where
  name : String
  trajectories : List (Option PlanRecord)
  duration : ℚ
  num_commands : ℕ
deriving DecidableEq, Repr, Inhabited

/-- The aggregated motion plan returned by `plan_tdl_program`. -/
structure MotionPlan where
  goals : List GoalRecord
  total_duration : ℚ
  total_waypoints : ℕ
  success : Bool
  errors : List String
deriving DecidableEq, Repr, Inhabited

/-- The mutable state of one planning pass: the motion plan under
construction plus `self.current_joints`. -/
structure PlanState where
  plan : MotionPlan
  current_joints : List ℚ
deriving DecidableEq, Repr, Inhabited

/-- The goal loop of `TDLMotionPlanner.plan_tdl_program`: an aborted Goal
contributes one error and `success := false`; a planned Goal contributes
its record and updates the running totals. -/
def plan_goals (tp : TrajectoryPlanner) (ik : IKSolver)
    (defs : List (String × String)) (st : PlanState) :
    List TDLGoal → Except PyErr PlanState
  | [] => .ok st
  | goal :: rest => do
    let (goal_plan, cur') ← plan_goal tp ik defs st.current_joints goal
    match goal_plan with
    | none =>
      plan_goals tp ik defs
        { plan :=
            { st.plan with
              success := false
              errors := st.plan.errors ++ ["Failed to plan GOAL: " ++ goal.name] }
          current_joints := cur' } rest
    | some recs => do
      let dur ← sumDurations recs
      plan_goals tp ik defs
        { plan :=
            { st.plan with
              goals := st.plan.goals ++ [⟨goal.name, recs, dur, goal.commands.length⟩]
              total_duration := st.plan.total_duration + dur
              total_waypoints := st.plan.total_waypoints + sumWaypoints recs }
          current_joints := cur' } rest

/-- The initial planning state: empty plan with `success = True`, and the
cursor seeded once to the all-zero 6-joint home configuration. -/
def initPlanState : PlanState :=
  ⟨⟨[], 0, 0, true, []⟩, List.replicate 6 0⟩

/-- Embedding of `TDLMotionPlanner.plan_tdl_program`. -/
def plan_tdl_program (tp : TrajectoryPlanner) (ik : IKSolver)
    (prog : TDLProgram) : Except PyErr MotionPlan := do
  let st ← plan_goals tp ik prog.definitions initPlanState prog.goals
  return st.plan

/-- Derived run characterisation: the names of the Goals that abort when
the program's goals are planned in order from the given cursor (used to
state the aggregation claims; built directly on `plan_goal`). -/
def runAborted (tp : TrajectoryPlanner) (ik : IKSolver)
    (defs : List (String × String)) : List ℚ → List TDLGoal → Except PyErr (List String)
  | _, [] => .ok []
  | cur, g :: gs => do
    let (r, cur') ← plan_goal tp ik defs cur g
    let rest ← runAborted tp ik defs cur' gs
    match r with
    | none => .ok (g.name :: rest)
    | some _ => .ok rest

/-- The cursor evolution induced by one appended record: a motion
trajectory moves the cursor to its final waypoint, anything else leaves it
unchanged. -/
def cursorStep (cur : List ℚ) (r : Option PlanRecord) : List ℚ :=
  match r with
  | some (.motion t _ _) => t.waypoints.getLast?.getD cur
  | _ => cur

/-!
## Concrete fixtures

A benign capability configuration (no collisions, IK that always fails —
irrelevant for joint-space plans — and a placeholder square root) and the
concrete programs used to instantiate the claims.
-/

/-- Wide joint limits, collision checking off. -/
def tpX : TrajectoryPlanner :=
  ⟨[(-10, 10), (-10, 10), (-10, 10), (-10, 10), (-10, 10), (-10, 10)],
   false, fun _ => false, id⟩

/-- A kinematics capability whose IK always fails (never consulted by the
joint-space scenarios below). -/
def ikX : IKSolver := ⟨fun _ _ _ => none, fun _ => ([0, 0, 0], [0, 0, 0])⟩

/-- A motion command whose pose literal cannot be parsed. -/
def cmdBad : TDLCommand := ⟨"MoveJoint", [("target_pose", .str "nonsense")], ""⟩

/-- A valid joint-space motion command. -/
def cmdGood : TDLCommand := ⟨"MoveJoint", [("target_pose", .str "PosJ(10,20,30,40,50,60)")], ""⟩

/-- Goal A contains one invalid motion command; Goal B is entirely valid. -/
def progAB : TDLProgram := ⟨[⟨"A", [cmdBad]⟩, ⟨"B", [cmdGood]⟩], []⟩

/-- The motion plan computed for `progAB`. -/
def mpAB : MotionPlan := (plan_tdl_program tpX ikX progAB).toOption.getD default

/-- A single Goal holding a `MoveCircular` followed by a `Delay`. -/
def progC : TDLProgram :=
  ⟨[⟨"G", [⟨"MoveCircular", [], ""⟩, ⟨"Delay", [("duration", .int 1)], ""⟩]⟩], []⟩

/-- The motion plan computed for `progC`. -/
def mpC : MotionPlan := (plan_tdl_program tpX ikX progC).toOption.getD default

/-- Narrow joint limits `[-1, 1]` per joint, collision checking off. -/
def tpL : TrajectoryPlanner :=
  ⟨[(-1, 1), (-1, 1), (-1, 1), (-1, 1), (-1, 1), (-1, 1)],
   false, fun _ => false, id⟩

/-- A start configuration whose first joint (value 2) violates `tpL`'s limits. -/
def startOut : List ℚ := [2, 0, 0, 0, 0, 0]

/-- A goal configuration within `tpL`'s limits. -/
def goalIn : List ℚ := [0, 0, 0, 0, 0, 0]

/-- The trajectory `plan_joint_trajectory` synthesizes from `startOut` to
`goalIn` under `tpL`. -/
def trajL : Traj :=
  ((plan_joint_trajectory tpL startOut goalIn (some 100) (some 50) 50).toOption.getD none).getD default

/-- A motion command ending at `PosJ(90,0,0,0,0,0)`. -/
def cmdG1 : TDLCommand := ⟨"MoveJoint", [("target_pose", .str "PosJ(90,0,0,0,0,0)")], ""⟩

/-- A goal consisting of `cmdG1`. -/
def goalJ : TDLGoal := ⟨"A", [cmdG1]⟩

/-- Outcome of planning `goalJ` from the home configuration. -/
def pgJ : Option (List (Option PlanRecord)) × List ℚ :=
  (plan_goal tpX ikX [] (List.replicate 6 0) goalJ).toOption.getD (none, [])

/-- The records planned for `goalJ`. -/
def recsJ : List (Option PlanRecord) := pgJ.1.getD []

/-- A goal whose first command plans successfully (ending at
`PosJ(90,0,0,0,0,0)`) and whose second motion command fails to plan. -/
def goalAbort : TDLGoal := ⟨"C", [cmdG1, cmdBad]⟩

/-- Does this line add a new goal in `parseLines` (mirrors the branch
structure of the loop: not blank/comment, not `DEFINE`, starts with `GOAL`,
and the header regex matches)? -/
def line_adds_goal (l : List Char) : Bool :=
  let line := pyStrip l
  if line = [] ∨ (['/', '/'].isPrefixOf line) ∨ (['#'].isPrefixOf line) then false
  else if ("DEFINE".toList).isPrefixOf line then false
  else if ("GOAL".toList).isPrefixOf line then (matchGoalHeader line).isSome
  else false

/-- A SPAWN line appearing outside any GOAL braces. -/
def spawnAfterLine : List Char := "SPAWN Delay(duration=1);".toList

/-- The command `spawnAfterLine` parses to. -/
def delayCmd : TDLCommand := ⟨"Delay", [("duration", .int 1)], "Delay(duration=1)"⟩

/-!
## Theorems
-/

deriving instance DecidableEq for Except

unseal Rat.mul Rat.add Rat.sub Rat.inv Rat.ofScientific

@[simp]
lemma exceptBind_ok {ε α β : Type} (a : α) (f : α → Except ε β) :
    (Except.ok a >>= f) = f a := rfl

@[simp]
lemma exceptBind_error {ε α β : Type} (e : ε) (f : α → Except ε β) :
    ((Except.error e : Except ε α) >>= f) = Except.error e := rfl

@[simp]
lemma exceptPure_eq_ok {ε α : Type} (a : α) : (pure a : Except ε α) = Except.ok a := rfl

/-- C3 (counterexample): the claim quantifies over all `a ≥ 0`, but at
`d = 1`, `v = 1`, `a = 0` the duration computation raises
`ZeroDivisionError` (`t_accel = velocity / acceleration`) instead of
returning a value. -/
theorem calculate_duration_zero_accel_raises :
    calculate_duration Real.sqrt (1 : ℝ) 1 0 = .error .zeroDivisionError := by
  simp [calculate_duration, pydiv]

/-- C3 (amended): for distance `d ≥ 0` and strictly positive velocity and
acceleration, `_calculate_duration` returns `2·t_a + (d − 2·d_a)/v` when
`2·d_a < d` (trapezoidal) and `2·sqrt(d/a)` otherwise (triangular), with
`t_a = v/a`, `d_a = 0.5·a·t_a²`; in particular `d=100, v=100, a=50` gives
`2·sqrt 2` and `d=1000, v=100, a=50` gives exactly `12` seconds.  (With
`v = 0` or `a = 0` the code raises `ZeroDivisionError` instead.) -/
theorem calculate_duration_profile :
    (∀ d v a : ℝ, 0 ≤ d → 0 < v → 0 < a →
      calculate_duration Real.sqrt d v a =
        .ok (if 2 * ((0.5 : ℝ) * a * (v / a) ^ 2) < d
             then 2 * (v / a) + (d - 2 * ((0.5 : ℝ) * a * (v / a) ^ 2)) / v
             else 2 * Real.sqrt (d / a))) ∧
    calculate_duration Real.sqrt (100 : ℝ) 100 50 = .ok (2 * Real.sqrt 2) ∧
    calculate_duration Real.sqrt (1000 : ℝ) 100 50 = .ok 12 := by
  refine ⟨?_, ?_, ?_⟩
  · intro d v a _ hv ha
    simp [calculate_duration, pydiv, ha.ne', hv.ne']
    split <;> rfl
  · norm_num [calculate_duration, pydiv]
  · norm_num [calculate_duration, pydiv]

/-- C3 (witness): the amended duration law applied at the concrete
trapezoidal input `d=1000, v=100, a=50`. -/
theorem calculate_duration_profile_witness :
    calculate_duration Real.sqrt (1000 : ℝ) 100 50 =
      .ok (if 2 * ((0.5 : ℝ) * 50 * ((100 : ℝ) / 50) ^ 2) < 1000
           then 2 * ((100 : ℝ) / 50) + (1000 - 2 * ((0.5 : ℝ) * 50 * ((100 : ℝ) / 50) ^ 2)) / 100
           else 2 * Real.sqrt (1000 / 50)) :=
  calculate_duration_profile.1 1000 100 50 (by norm_num) (by norm_num) (by norm_num)

/-- C6 (counterexample): `PosX(1,2,3)` has fewer than 6 numeric components
yet parses successfully, with the missing orientation defaulted to
`[0,0,0]` — contradicting the claim that any non-6-tuple form fails. -/
theorem parse_tdl_pose_three_components_succeeds :
    parse_tdl_pose "PosX(1,2,3)" = .ok (some (.cartesian [1, 2, 3] [0, 0, 0])) := by
  decide

/-- C6 (amended): pose parsing fails (produces no pose) exactly on strings
not starting with `PosX(`/`PosJ(` (or raises `ValueError` on non-numeric
components); a `PosX` constructor accepts any component count, taking the
first three as position and components 4–6 as orientation (defaulting to
zeros when fewer than 6 are given, ignoring any beyond the sixth), and a
`PosJ` constructor keeps all its components, 6 or not. -/
theorem parse_tdl_pose_forms :
    (∀ s : String, ("PosX(".toList).isPrefixOf s.toList = false →
      ("PosJ(".toList).isPrefixOf s.toList = false → parse_tdl_pose s = .ok none) ∧
    parse_tdl_pose "PosX(1,2,3,4,5,6,7)" = .ok (some (.cartesian [1, 2, 3] [4, 5, 6])) ∧
    parse_tdl_pose "PosJ(1,2)" = .ok (some (.joint [1, 2])) ∧
    parse_tdl_pose "PosX(300,200,50,0,0,0)" = .ok (some (.cartesian [300, 200, 50] [0, 0, 0])) ∧
    parse_tdl_pose "PosJ(10,20,30,40,50,60)" = .ok (some (.joint [10, 20, 30, 40, 50, 60])) := by
  refine ⟨?_, by decide, by decide, by decide, by decide⟩
  intro s h1 h2
  have h1' : ¬((['P', 'o', 's', 'X', '('] : List Char) <+: s.data) := fun hp => by
    have h : "PosX(".toList.isPrefixOf s.toList = true := List.isPrefixOf_iff_prefix.mpr hp
    rw [h1] at h
    exact Bool.false_ne_true h
  have h2' : ¬((['P', 'o', 's', 'J', '('] : List Char) <+: s.data) := fun hp => by
    have h : "PosJ(".toList.isPrefixOf s.toList = true := List.isPrefixOf_iff_prefix.mpr hp
    rw [h2] at h
    exact Bool.false_ne_true h
  simp [parse_tdl_pose, h1', h2']

/-- C6 (witness): the amended no-pose case applied at the concrete string
`"nonsense"`. -/
theorem parse_tdl_pose_forms_witness :
    parse_tdl_pose "nonsense" = .ok none :=
  (parse_tdl_pose_forms).1 "nonsense" (by decide) (by decide)

/-- C8: unit conversion is exact — Cartesian positions are divided by 1000
(mm → m) and every angular component is multiplied by `π/180` (deg → rad);
`PosX(300,200,50,0,0,0)` converts to position `(0.3, 0.2, 0.05)` m with
orientation `(0,0,0)` rad, and `PosJ(90,0,0,0,0,0)` converts to
`joint[0] = π/2` rad with the other five joints `0`. -/
theorem convert_tdl_to_meters_exact :
    (∀ (pi : ℝ) (pos orn : List ℝ),
      convert_tdl_to_meters pi (.cartesian pos orn) =
        .cartesian (pos.map fun p => p / 1000) (orn.map fun o => o * (pi / 180))) ∧
    (∀ (pi : ℝ) (js : List ℝ),
      convert_tdl_to_meters pi (.joint js) = .joint (js.map fun j => j * (pi / 180))) ∧
    parse_tdl_pose "PosX(300,200,50,0,0,0)" = .ok (some (.cartesian [300, 200, 50] [0, 0, 0])) ∧
    convert_tdl_to_meters Real.pi
        (TDLPose.map (fun q : ℚ => (q : ℝ)) (.cartesian [300, 200, 50] [0, 0, 0])) =
      .cartesian [0.3, 0.2, 0.05] [0, 0, 0] ∧
    parse_tdl_pose "PosJ(90,0,0,0,0,0)" = .ok (some (.joint [90, 0, 0, 0, 0, 0])) ∧
    convert_tdl_to_meters Real.pi
        (TDLPose.map (fun q : ℚ => (q : ℝ)) (.joint [90, 0, 0, 0, 0, 0])) =
      .joint [Real.pi / 2, 0, 0, 0, 0, 0] := by
  refine ⟨fun _ _ _ => rfl, fun _ _ => rfl, by decide, ?_, by decide, ?_⟩
  · simp [convert_tdl_to_meters, TDLPose.map]
    norm_num
  · simp [convert_tdl_to_meters, TDLPose.map]
    ring

lemma plan_joint_trajectory_limits_fail (tp : TrajectoryPlanner) (s g : List ℚ)
    (v a : Option ℚ) (n : ℕ) (h : check_joint_limits tp.joint_limits g = false) :
    plan_joint_trajectory tp s g v a n = .ok none := by
  simp [plan_joint_trajectory, h]

/-- C5 (counterexample): with per-joint limits `[-1, 1]`, a start
configuration `[2,0,0,0,0,0]` violating them and an in-limits goal,
`plan_joint_trajectory` still returns a trajectory whose first waypoint is
the violating start — interpolated waypoints derived from the start are
never checked against the limits, contradicting the claim. -/
theorem plan_joint_trajectory_start_unchecked :
    plan_joint_trajectory tpL startOut goalIn (some 100) (some 50) 50 = .ok (some trajL) ∧
    trajL.waypoints.head? = some startOut ∧
    check_joint_limits tpL.joint_limits startOut = false :=
  ⟨by decide, by decide, by decide⟩

/-- C5 (amended): joint-space synthesis validates only the goal
configuration against the declared per-joint limits: it is rejected when
the goal violates them, and any returned trajectory has an in-limits goal
and waypoints that are exactly the start-to-goal interpolation — with no
limit check on the interpolated (start-derived) waypoints. -/
theorem plan_joint_trajectory_goal_only_checked :
    (∀ (tp : TrajectoryPlanner) (s g : List ℚ) (v a : Option ℚ) (n : ℕ),
      check_joint_limits tp.joint_limits g = false →
      plan_joint_trajectory tp s g v a n = .ok none) ∧
    (∀ (tp : TrajectoryPlanner) (s g : List ℚ) (v a : Option ℚ) (n : ℕ) (t : Traj),
      plan_joint_trajectory tp s g v a n = .ok (some t) →
      check_joint_limits tp.joint_limits g = true ∧
      t.waypoints = interpolate_joint_path s g n) := by
  refine ⟨plan_joint_trajectory_limits_fail, ?_⟩
  intro tp s g v a n t h
  by_cases hc : check_joint_limits tp.joint_limits g
  · refine ⟨hc, ?_⟩
    simp only [plan_joint_trajectory, hc, not_true, if_false, Bool.not_eq_true] at h
    split at h
    · simp at h
    · cases hm : maxAbsDiff g s with
      | error e => rw [hm] at h; simp at h
      | ok d =>
        rw [hm] at h
        simp only [exceptBind_ok] at h
        cases hd : calculate_duration_dyn tp.sqrt d v a with
        | error e => rw [hd] at h; simp at h
        | ok dur =>
          rw [hd] at h
          simp only [exceptBind_ok, exceptPure_eq_ok, Except.ok.injEq, Option.some.injEq] at h
          rw [← h]
  · rw [plan_joint_trajectory_limits_fail tp s g v a n (Bool.not_eq_true _ ▸ hc)] at h
    simp at h

/-- C5 (witness): the amended statement applied concretely — a goal
violating the limits is rejected, and the accepted
`startOut → goalIn` synthesis returns exactly the interpolated path. -/
theorem plan_joint_trajectory_goal_only_checked_witness :
    plan_joint_trajectory tpL goalIn startOut (some 100) (some 50) 50 = .ok none ∧
    (check_joint_limits tpL.joint_limits goalIn = true ∧
     trajL.waypoints = interpolate_joint_path startOut goalIn 50) :=
  ⟨plan_joint_trajectory_goal_only_checked.1 tpL goalIn startOut (some 100) (some 50) 50 (by decide),
   plan_joint_trajectory_goal_only_checked.2 tpL startOut goalIn (some 100) (some 50) 50 trajL (by decide)⟩

/-- C4 (counterexample): a program with one Goal `G` holding a
`MoveCircular` then a `Delay` yields `success = false`, an error naming
`G`, and no goal record — so the `MoveCircular` capability gap IS treated
as a fatal error (the Goal aborts and the subsequent `Delay` is never
planned), contradicting the claim. -/
theorem move_circular_aborts_goal :
    plan_tdl_program tpX ikX progC = .ok mpC ∧
    mpC.success = false ∧
    mpC.errors = ["Failed to plan GOAL: G"] ∧
    mpC.goals = [] :=
  ⟨by decide, by decide, by decide, by decide⟩

/-- C4 (amended): planning a `MoveCircular` yields no trajectory, and —
because `MoveCircular` is listed among the motion commands — this is
fatal for the owning Goal: the moment the command loop reaches it, the
Goal aborts (remaining commands are not planned and the cursor is left
unchanged), which the aggregator turns into `success = false` plus one
error naming the Goal. -/
theorem move_circular_yields_none_and_aborts :
    (∀ (tp : TrajectoryPlanner) (ik : IKSolver) (defs : List (String × String))
       (cur : List ℚ) (c : TDLCommand), c.command_type = "MoveCircular" →
         plan_command tp ik defs cur c = .ok none ∧ is_motion_command c = true) ∧
    (∀ (tp : TrajectoryPlanner) (ik : IKSolver) (defs : List (String × String))
       (cur : List ℚ) (acc : List (Option PlanRecord)) (c : TDLCommand)
       (cs : List TDLCommand), c.command_type = "MoveCircular" →
         plan_goal_aux tp ik defs cur acc (c :: cs) = .ok (none, cur)) := by
  have hpc : ∀ (tp : TrajectoryPlanner) (ik : IKSolver) (defs : List (String × String))
      (cur : List ℚ) (c : TDLCommand), c.command_type = "MoveCircular" →
      plan_command tp ik defs cur c = .ok none := by
    intro tp ik defs cur c h
    simp [plan_command, h]
  refine ⟨fun tp ik defs cur c h => ⟨hpc tp ik defs cur c h, by simp [is_motion_command, h]⟩, ?_⟩
  intro tp ik defs cur acc c cs h
  simp [plan_goal_aux, hpc tp ik defs cur c h, is_motion_command, h]

/-- C4 (witness): the amended statement applied to a concrete
`MoveCircular` command and a goal starting with it. -/
theorem move_circular_yields_none_and_aborts_witness :
    (plan_command tpX ikX [] [] ⟨"MoveCircular", [], ""⟩ = .ok none ∧
      is_motion_command ⟨"MoveCircular", [], ""⟩ = true) ∧
    plan_goal_aux tpX ikX [] [] [] [⟨"MoveCircular", [], ""⟩, ⟨"Delay", [], ""⟩] = .ok (none, []) :=
  ⟨move_circular_yields_none_and_aborts.1 tpX ikX [] [] ⟨"MoveCircular", [], ""⟩ rfl,
   move_circular_yields_none_and_aborts.2 tpX ikX [] [] [] ⟨"MoveCircular", [], ""⟩ [⟨"Delay", [], ""⟩] rfl⟩

lemma interpolate_joint_path_getElem? (s g : List ℝ) (n i : ℕ) (hi : i < n) (h1 : 1 < n) :
    (interpolate_joint_path s g n)[i]? =
      some (s.zipWith (fun a b => a + ((i : ℝ) / ((n : ℝ) - 1)) * (b - a)) g) := by
  unfold interpolate_joint_path
  rw [List.getElem?_map, List.getElem?_range hi]
  simp [if_pos h1]

lemma zipWith_getD_real (f : ℝ → ℝ → ℝ) :
    ∀ (s g : List ℝ) (k : ℕ), k < s.length → k < g.length →
      (s.zipWith f g).getD k 0 = f (s.getD k 0) (g.getD k 0) := by
  intro s
  induction s with
  | nil => intro g k hk; simp at hk
  | cons a s ih =>
    intro g k hk hg
    cases g with
    | nil => simp at hg
    | cons b g =>
      cases k with
      | zero => simp [List.getD]
      | succ k =>
        simp only [List.zipWith_cons_cons, List.getD_cons_succ]
        exact ih g k (by simpa using hk) (by simpa using hg)

lemma zipWith_interp_zero : ∀ (s g : List ℝ), s.length = g.length →
    s.zipWith (fun a b => a + (0 : ℝ) * (b - a)) g = s := by
  intro s
  induction s with
  | nil => intro g _; simp
  | cons a s ih =>
    intro g h
    cases g with
    | nil => simp at h
    | cons b g =>
      have ht := ih g (by simpa using h)
      simp only [List.zipWith_cons_cons, ht]
      congr 1
      ring

lemma zipWith_interp_one : ∀ (s g : List ℝ), s.length = g.length →
    s.zipWith (fun a b => a + (1 : ℝ) * (b - a)) g = g := by
  intro s
  induction s with
  | nil =>
    intro g h
    simp [(List.length_eq_zero.mp h.symm)]
  | cons a s ih =>
    intro g h
    cases g with
    | nil => simp at h
    | cons b g =>
      have ht := ih g (by simpa using h)
      simp only [List.zipWith_cons_cons, ht]
      congr 1
      ring

/-- C7: joint-space interpolation with N=50 between 6-joint configurations
produces exactly 50 waypoints, whose first element is exactly the start and
whose last is exactly the goal, and each joint coordinate evolves
monotonically (non-decreasing when `goal[k] ≥ start[k]`, non-increasing
otherwise). -/
theorem interpolate_joint_path_endpoints_monotone (s g : List ℝ)
    (hs : s.length = 6) (hg : g.length = 6) :
    (interpolate_joint_path s g 50).length = 50 ∧
    (interpolate_joint_path s g 50).head? = some s ∧
    (interpolate_joint_path s g 50).getLast? = some g ∧
    (∀ k, k < 6 → ∀ i j, i < 50 → j < 50 → i ≤ j →
      (s.getD k 0 ≤ g.getD k 0 →
        ((interpolate_joint_path s g 50).getD i []).getD k 0 ≤
          ((interpolate_joint_path s g 50).getD j []).getD k 0) ∧
      (g.getD k 0 ≤ s.getD k 0 →
        ((interpolate_joint_path s g 50).getD j []).getD k 0 ≤
          ((interpolate_joint_path s g 50).getD i []).getD k 0)) := by
  have hlen : (interpolate_joint_path s g 50).length = 50 := by
    simp [interpolate_joint_path]
  have hwp : ∀ i, i < 50 → ((interpolate_joint_path s g 50).getD i []) =
      s.zipWith (fun a b => a + ((i : ℝ) / 49) * (b - a)) g := by
    intro i hi
    rw [List.getD_eq_getElem?_getD,
      interpolate_joint_path_getElem? s g 50 i hi (by norm_num)]
    norm_num
  have hcoord : ∀ i, i < 50 → ∀ k, k < 6 →
      ((interpolate_joint_path s g 50).getD i []).getD k 0 =
        s.getD k 0 + ((i : ℝ) / 49) * (g.getD k 0 - s.getD k 0) := by
    intro i hi k hk
    rw [hwp i hi, zipWith_getD_real _ s g k (hs ▸ hk) (hg ▸ hk)]
  refine ⟨hlen, ?_, ?_, ?_⟩
  · rw [List.head?_eq_getElem?,
      interpolate_joint_path_getElem? s g 50 0 (by norm_num) (by norm_num)]
    have h0 : ((0 : ℕ) : ℝ) / (((50 : ℕ) : ℝ) - 1) = 0 := by norm_num
    rw [h0, zipWith_interp_zero s g (hs.trans hg.symm)]
  · rw [List.getLast?_eq_getElem?, hlen,
      interpolate_joint_path_getElem? s g 50 49 (by norm_num) (by norm_num)]
    have h1 : ((49 : ℕ) : ℝ) / (((50 : ℕ) : ℝ) - 1) = 1 := by norm_num
    rw [h1, zipWith_interp_one s g (hs.trans hg.symm)]
  · intro k hk i j hi hj hij
    have halpha : (i : ℝ) / 49 ≤ (j : ℝ) / 49 := by
      apply div_le_div_of_nonneg_right ?_ (by norm_num)
      · exact_mod_cast hij
    rw [hcoord i hi k hk, hcoord j hj k hk]
    constructor
    · intro hsg
      have := mul_le_mul_of_nonneg_right halpha (sub_nonneg.mpr hsg)
      linarith
    · intro hgs
      have := mul_le_mul_of_nonpos_right halpha (sub_nonpos.mpr hgs)
      linarith

/-- C7 (witness): the interpolation property applied at the concrete pair
`start = [0,0,0,0,0,0]`, `goal = [π/2,0,0,0,0,0]` — the first waypoint is
exactly the start and the last is exactly the goal. -/
theorem interpolate_joint_path_endpoints_monotone_witness :
    (interpolate_joint_path (List.replicate 6 (0 : ℝ))
        (Real.pi / 2 :: List.replicate 5 0) 50).head? = some (List.replicate 6 (0 : ℝ)) ∧
    (interpolate_joint_path (List.replicate 6 (0 : ℝ))
        (Real.pi / 2 :: List.replicate 5 0) 50).getLast? =
      some (Real.pi / 2 :: List.replicate 5 0) :=
  ⟨(interpolate_joint_path_endpoints_monotone (List.replicate 6 (0 : ℝ))
      (Real.pi / 2 :: List.replicate 5 0) (by simp) (by simp)).2.1,
   (interpolate_joint_path_endpoints_monotone (List.replicate 6 (0 : ℝ))
      (Real.pi / 2 :: List.replicate 5 0) (by simp) (by simp)).2.2.1⟩

/-- C9 (counterexample): a SPAWN command appearing after a GOAL block's
closing brace is NOT dropped — the parser never resets `current_goal` at
`}`, so the command is appended to Goal `A`'s command list, contradicting
the claim. -/
theorem spawn_after_brace_attaches :
    tdl_parse "GOAL A()\n\x7b\n\x7d\nSPAWN Delay(duration=1);" =
      ⟨[⟨"A", [⟨"Delay", [("duration", .int 1)], "Delay(duration=1)"⟩]⟩], []⟩ := by
  decide

/-- C9 (amended): parsing never raises, and a SPAWN command is dropped
when no GOAL header has yet been seen (`current_goal` is `None`); but once
any GOAL has been declared, a SPAWN line — wherever it appears, including
after a block's closing brace — is appended to the most recently declared
Goal, because `current_goal` is never reset. -/
theorem spawn_outside_goal_behaviour :
    (∀ (ls : List (List Char)) (st : TDLProgram),
      (∀ l ∈ ls, line_adds_goal l = false) → st.goals = [] →
      (parseLines st ls).goals = []) ∧
    (∀ (st : TDLProgram) (ls : List (List Char)), st.goals ≠ [] →
      parseLines st (spawnAfterLine :: ls) = parseLines (append_to_last st delayCmd) ls) := by
  constructor
  · intro ls
    induction ls with
    | nil => intro st _ hgoals; simpa [parseLines] using hgoals
    | cons l ls ih =>
      intro st hall hgoals
      have hal : line_adds_goal l = false := hall l (List.mem_cons_self l ls)
      have hrest : ∀ x ∈ ls, line_adds_goal x = false :=
        fun x hx => hall x (List.mem_cons_of_mem _ hx)
      simp only [parseLines]
      by_cases h1 : pyStrip l = [] ∨ (['/', '/'].isPrefixOf (pyStrip l)) ∨
          (['#'].isPrefixOf (pyStrip l))
      · rw [if_pos h1]; exact ih st hrest hgoals
      · rw [if_neg h1]
        by_cases h2 : ("DEFINE".toList).isPrefixOf (pyStrip l)
        · rw [if_pos h2]
          exact ih _ hrest (by simpa [parse_define] using hgoals)
        · rw [if_neg h2]
          by_cases h3 : ("GOAL".toList).isPrefixOf (pyStrip l)
          · rw [if_pos h3]
            cases hmg : matchGoalHeader (pyStrip l) with
            | some nm =>
              exfalso
              have h := hal
              simp only [line_adds_goal] at h
              rw [if_neg h1, if_neg h2, if_pos h3, hmg] at h
              simp at h
            | none => exact ih st hrest hgoals
          · rw [if_neg h3]
            by_cases h4 : pyStrip l = [Char.ofNat 123] ∨ pyStrip l = [Char.ofNat 125]
            · rw [if_pos h4]; exact ih st hrest hgoals
            · rw [if_neg h4]
              rw [if_neg (fun hc => hc.2 hgoals)]
              exact ih st hrest hgoals
  · intro st ls h
    simp only [parseLines]
    rw [if_neg (by decide), if_neg (by decide), if_neg (by decide), if_neg (by decide),
      if_pos ⟨by decide, h⟩,
      show parse_spawn_command (pyStrip spawnAfterLine) = some delayCmd from by decide]

/-- C9 (witness): a SPAWN command before any GOAL header is dropped — the
resulting program has no goals, so the command is in no Goal's list. -/
theorem spawn_outside_goal_behaviour_witness :
    (tdl_parse "SPAWN Delay(duration=1);").goals = [] :=
  spawn_outside_goal_behaviour.1
    (splitOnChar '\n' ("SPAWN Delay(duration=1);".toList)) ⟨[], []⟩ (by decide) rfl

lemma plan_goal_aux_cursor (tp : TrajectoryPlanner) (ik : IKSolver)
    (defs : List (String × String)) :
    ∀ (cmds : List TDLCommand) (cur : List ℚ) (acc recs : List (Option PlanRecord))
      (cur' : List ℚ),
      plan_goal_aux tp ik defs cur acc cmds = .ok (some recs, cur') →
      ∃ suf, recs = acc ++ suf ∧ cur' = suf.foldl cursorStep cur := by
  intro cmds
  induction cmds with
  | nil =>
    intro cur acc recs cur' h
    simp only [plan_goal_aux, Except.ok.injEq, Prod.mk.injEq, Option.some.injEq] at h
    exact ⟨[], h.1.symm ▸ (by simp), h.2.symm ▸ rfl⟩
  | cons c cs ih =>
    intro cur acc recs cur' h
    simp only [plan_goal_aux] at h
    cases hpc : plan_command tp ik defs cur c with
    | error e => rw [hpc] at h; simp at h
    | ok traj =>
      rw [hpc] at h
      simp only [exceptBind_ok] at h
      by_cases habort : traj = none ∧ is_motion_command c
      · rw [if_pos habort] at h
        simp at h
      · rw [if_neg habort] at h
        cases traj with
        | none =>
          simp only [exceptBind_ok] at h
          obtain ⟨suf, hr, hc⟩ := ih cur (acc ++ [none]) recs cur' h
          refine ⟨none :: suf, by simp [hr], ?_⟩
          simpa [cursorStep] using hc
        | some pr =>
          cases pr with
          | nonMotion cmd args dur =>
            simp only [exceptBind_ok] at h
            obtain ⟨suf, hr, hc⟩ := ih cur (acc ++ [some (.nonMotion cmd args dur)]) recs cur' h
            refine ⟨some (.nonMotion cmd args dur) :: suf, by simp [hr], ?_⟩
            simpa [cursorStep] using hc
          | motion t cmd tgt =>
            dsimp only at h
            cases hlast : t.waypoints.getLast? with
            | none => rw [hlast] at h; simp at h
            | some w =>
              rw [hlast] at h
              simp only [exceptBind_ok] at h
              obtain ⟨suf, hr, hc⟩ := ih w (acc ++ [some (.motion t cmd tgt)]) recs cur' h
              refine ⟨some (.motion t cmd tgt) :: suf, by simp [hr], ?_⟩
              rw [List.foldl_cons]
              have hstep : cursorStep cur (some (.motion t cmd tgt)) = w := by
                simp [cursorStep, hlast]
              rw [hstep]
              exact hc

lemma plan_goal_aux_abort_prefix (tp : TrajectoryPlanner) (ik : IKSolver)
    (defs : List (String × String)) :
    ∀ (cmds : List TDLCommand) (cur : List ℚ) (acc : List (Option PlanRecord))
      (cur' : List ℚ),
      plan_goal_aux tp ik defs cur acc cmds = .ok (none, cur') →
      ∃ (pre : List TDLCommand) (c : TDLCommand) (suf : List TDLCommand)
        (recs : List (Option PlanRecord)),
        cmds = pre ++ c :: suf ∧
        plan_goal_aux tp ik defs cur acc pre = .ok (some recs, cur') ∧
        plan_command tp ik defs cur' c = .ok none ∧
        is_motion_command c = true := by
  intro cmds
  induction cmds with
  | nil =>
    intro cur acc cur' h
    simp only [plan_goal_aux, Except.ok.injEq, Prod.mk.injEq] at h
    exact absurd h.1 (by simp)
  | cons c cs ih =>
    intro cur acc cur' h
    simp only [plan_goal_aux] at h
    cases hpc : plan_command tp ik defs cur c with
    | error e => rw [hpc] at h; simp at h
    | ok traj =>
      rw [hpc] at h
      simp only [exceptBind_ok] at h
      by_cases habort : traj = none ∧ is_motion_command c
      · rw [if_pos habort] at h
        simp only [Except.ok.injEq, Prod.mk.injEq] at h
        have hcur : cur = cur' := h.2
        refine ⟨[], c, cs, acc, rfl, ?_, ?_, habort.2⟩
        · simp only [plan_goal_aux]
          rw [hcur]
        · rw [← hcur, hpc, habort.1]
      · rw [if_neg habort] at h
        cases traj with
        | none =>
          simp only [exceptBind_ok] at h
          obtain ⟨pre, c', suf, recs, hsplit, hpre, hfail, hmot⟩ :=
            ih cur (acc ++ [none]) cur' h
          refine ⟨c :: pre, c', suf, recs, by simp [hsplit], ?_, hfail, hmot⟩
          simp only [plan_goal_aux, hpc, exceptBind_ok]
          rw [if_neg (fun hc => habort ⟨rfl, hc.2⟩)]
          try simp only [exceptBind_ok]
          exact hpre
        | some pr =>
          cases pr with
          | nonMotion cmd args dur =>
            simp only [exceptBind_ok] at h
            obtain ⟨pre, c', suf, recs, hsplit, hpre, hfail, hmot⟩ :=
              ih cur (acc ++ [some (.nonMotion cmd args dur)]) cur' h
            refine ⟨c :: pre, c', suf, recs, by simp [hsplit], ?_, hfail, hmot⟩
            simp only [plan_goal_aux, hpc, exceptBind_ok]
            rw [if_neg habort]
            try simp only [exceptBind_ok]
            exact hpre
          | motion t cmd tgt =>
            dsimp only at h
            cases hlast : t.waypoints.getLast? with
            | none => rw [hlast] at h; simp at h
            | some w =>
              rw [hlast] at h
              simp only [exceptBind_ok] at h
              obtain ⟨pre, c', suf, recs, hsplit, hpre, hfail, hmot⟩ :=
                ih w (acc ++ [some (.motion t cmd tgt)]) cur' h
              refine ⟨c :: pre, c', suf, recs, by simp [hsplit], ?_, hfail, hmot⟩
              simp only [plan_goal_aux, hpc, exceptBind_ok]
              rw [if_neg habort]
              try dsimp only
              rw [hlast]
              try simp only [exceptBind_ok]
              exact hpre

lemma plan_goals_characterisation (tp : TrajectoryPlanner) (ik : IKSolver)
    (defs : List (String × String)) :
    ∀ (gs : List TDLGoal) (st st' : PlanState),
      plan_goals tp ik defs st gs = .ok st' →
      ∃ ab, runAborted tp ik defs st.current_joints gs = .ok ab ∧
        st'.plan.errors = st.plan.errors ++ ab.map (fun n => "Failed to plan GOAL: " ++ n) ∧
        st'.plan.success = (st.plan.success && ab.isEmpty) ∧
        st'.plan.goals.length + ab.length = st.plan.goals.length + gs.length ∧
        (∀ gr ∈ st'.plan.goals, gr ∈ st.plan.goals ∨
          ∃ g ∈ gs, gr.name = g.name ∧ gr.num_commands = g.commands.length) := by
  intro gs
  induction gs with
  | nil =>
    intro st st' h
    simp only [plan_goals, Except.ok.injEq] at h
    subst h
    exact ⟨[], rfl, by simp, by simp, by simp, fun gr hgr => Or.inl hgr⟩
  | cons g gs ih =>
    intro st st' h
    simp only [plan_goals] at h
    cases hpg : plan_goal tp ik defs st.current_joints g with
    | error e => rw [hpg] at h; simp at h
    | ok rc =>
      rw [hpg] at h
      simp only [exceptBind_ok] at h
      obtain ⟨r, cur'⟩ := rc
      cases r with
      | none =>
        dsimp only at h
        obtain ⟨ab, hrun, herr, hsucc, hlen, hmem⟩ := ih _ st' h
        refine ⟨g.name :: ab, ?_, ?_, ?_, ?_, ?_⟩
        · simp only [runAborted, hpg, exceptBind_ok, hrun]
        · rw [herr]; simp
        · rw [hsucc]; simp
        · simp only [List.length_cons]
          have : st'.plan.goals.length + ab.length =
              st.plan.goals.length + gs.length := by simpa using hlen
          omega
        · intro gr hgr
          rcases hmem gr hgr with h' | ⟨g', hg', hn⟩
          · exact Or.inl h'
          · exact Or.inr ⟨g', List.mem_cons_of_mem _ hg', hn⟩
      | some recs =>
        dsimp only at h
        cases hsd : sumDurations recs with
        | error e => rw [hsd] at h; simp at h
        | ok dur =>
          rw [hsd] at h
          simp only [exceptBind_ok] at h
          obtain ⟨ab, hrun, herr, hsucc, hlen, hmem⟩ := ih _ st' h
          refine ⟨ab, ?_, ?_, ?_, ?_, ?_⟩
          · simp only [runAborted, hpg, exceptBind_ok, hrun, hsd]
          · simpa using herr
          · simpa using hsucc
          · have : st'.plan.goals.length + ab.length =
                (st.plan.goals.length + 1) + gs.length := by simpa using hlen
            simp only [List.length_cons]
            omega
          · intro gr hgr
            rcases hmem gr hgr with h' | ⟨g', hg', hn⟩
            · have h2 : gr ∈ st.plan.goals ∨
                  gr = ({ name := g.name, trajectories := recs, duration := dur,
                          num_commands := g.commands.length } : GoalRecord) := by
                simpa using h'
              rcases h2 with hin | hnew
              · exact Or.inl hin
              · refine Or.inr ⟨g, List.mem_cons_self g gs, ?_⟩
                simp [hnew]
            · exact Or.inr ⟨g', List.mem_cons_of_mem _ hg', hn⟩

/-- C1: for every planned TDL program, the motion plan has
`success = false` iff at least one Goal aborted; the error list has
exactly one entry per aborted Goal, naming it (in order); and every
non-aborted Goal still contributes a goal record, so goal records plus
aborted Goals account for all Goals of the program. -/
theorem plan_program_success_iff_aborted :
    ∀ (tp : TrajectoryPlanner) (ik : IKSolver) (prog : TDLProgram) (mp : MotionPlan),
      plan_tdl_program tp ik prog = .ok mp →
      ∃ ab, runAborted tp ik prog.definitions (List.replicate 6 0) prog.goals = .ok ab ∧
        (mp.success = false ↔ ab ≠ []) ∧
        mp.errors = ab.map (fun n => "Failed to plan GOAL: " ++ n) ∧
        mp.goals.length + ab.length = prog.goals.length := by
  intro tp ik prog mp h
  cases hpg : plan_goals tp ik prog.definitions initPlanState prog.goals with
  | error e => simp [plan_tdl_program, hpg] at h
  | ok st' =>
    have hmp : mp = st'.plan := by
      simp only [plan_tdl_program, hpg, exceptBind_ok, exceptPure_eq_ok, Except.ok.injEq] at h
      exact h.symm
    obtain ⟨ab, hrun, herr, hsucc, hlen, _⟩ :=
      plan_goals_characterisation tp ik prog.definitions prog.goals initPlanState st' hpg
    refine ⟨ab, hrun, ?_, ?_, ?_⟩
    · rw [hmp, hsucc]
      cases ab <;> simp [initPlanState]
    · rw [hmp, herr]; simp [initPlanState]
    · rw [hmp]
      have : st'.plan.goals.length + ab.length = prog.goals.length := by
        simpa [initPlanState] using hlen
      exact this

/-- C1 (witness): Goal A with one invalid motion command and an entirely
valid Goal B yield `success = false`, exactly one error naming A, and B's
trajectories present. -/
theorem plan_program_success_iff_aborted_witness :
    plan_tdl_program tpX ikX progAB = .ok mpAB ∧
    (∃ ab, runAborted tpX ikX progAB.definitions (List.replicate 6 0) progAB.goals = .ok ab ∧
      (mpAB.success = false ↔ ab ≠ []) ∧
      mpAB.errors = ab.map (fun n => "Failed to plan GOAL: " ++ n) ∧
      mpAB.goals.length + ab.length = progAB.goals.length) :=
  ⟨by decide, plan_program_success_iff_aborted tpX ikX progAB mpAB (by decide)⟩

/-- C10: an aborted Goal contributes no goal record at all (its partial
trajectories are discarded), so goal records plus error entries account
for every Goal of the input program, and every listed goal record carries
the full command count of a Goal of the program. -/
theorem plan_program_goal_accounting :
    ∀ (tp : TrajectoryPlanner) (ik : IKSolver) (prog : TDLProgram) (mp : MotionPlan),
      plan_tdl_program tp ik prog = .ok mp →
      mp.goals.length + mp.errors.length = prog.goals.length ∧
      ∀ gr ∈ mp.goals, ∃ g ∈ prog.goals,
        gr.name = g.name ∧ gr.num_commands = g.commands.length := by
  intro tp ik prog mp h
  cases hpg : plan_goals tp ik prog.definitions initPlanState prog.goals with
  | error e => simp [plan_tdl_program, hpg] at h
  | ok st' =>
    have hmp : mp = st'.plan := by
      simp only [plan_tdl_program, hpg, exceptBind_ok, exceptPure_eq_ok, Except.ok.injEq] at h
      exact h.symm
    obtain ⟨ab, _, herr, _, hlen, hmem⟩ :=
      plan_goals_characterisation tp ik prog.definitions prog.goals initPlanState st' hpg
    constructor
    · rw [hmp, herr]
      have : st'.plan.goals.length + ab.length = prog.goals.length := by
        simpa [initPlanState] using hlen
      simpa [initPlanState] using this
    · intro gr hgr
      rcases hmem gr (by rw [hmp] at hgr; exact hgr) with h' | h'
      · simp [initPlanState] at h'
      · exact h'

/-- C10 (witness): the accounting applied to the concrete program with an
aborted Goal A and a planned Goal B: one record plus one error covers both
Goals, and B's record carries its full command count. -/
theorem plan_program_goal_accounting_witness :
    mpAB.goals.length + mpAB.errors.length = progAB.goals.length :=
  (plan_program_goal_accounting tpX ikX progAB mpAB (by decide)).1

/-- C2: the joint-configuration cursor is initialised exactly once, before
the first Goal, to the all-zero 6-joint configuration; `plan_goals`
threads the cursor returned by each Goal into the next Goal's planning;
within a Goal the final cursor is the fold of `cursorStep` over the
planned records — it moves to a trajectory's final waypoint exactly for
motion records and is untouched by everything else; and an aborted Goal's
commands split as `pre ++ c :: suf` where `c` is the first failing motion
command: the returned cursor is exactly the cursor the planner itself
produces for the successful prefix `pre` (the fold of `cursorStep` over
its records), and the failing command `c` was planned from that cursor
and left it unchanged. -/
theorem cursor_threading :
    (∀ (tp : TrajectoryPlanner) (ik : IKSolver) (prog : TDLProgram),
      plan_tdl_program tp ik prog =
        (plan_goals tp ik prog.definitions initPlanState prog.goals).map PlanState.plan ∧
      initPlanState.current_joints = List.replicate 6 0) ∧
    (∀ (tp : TrajectoryPlanner) (ik : IKSolver) (defs : List (String × String))
       (st : PlanState) (g : TDLGoal) (gs : List TDLGoal),
      plan_goals tp ik defs st (g :: gs) =
        plan_goal tp ik defs st.current_joints g >>= fun rc =>
          match rc.1 with
          | none => plan_goals tp ik defs
              ⟨{ st.plan with
                 success := false,
                 errors := st.plan.errors ++ ["Failed to plan GOAL: " ++ g.name] }, rc.2⟩ gs
          | some recs => sumDurations recs >>= fun dur =>
              plan_goals tp ik defs
                ⟨{ st.plan with
                   goals := st.plan.goals ++ [⟨g.name, recs, dur, g.commands.length⟩],
                   total_duration := st.plan.total_duration + dur,
                   total_waypoints := st.plan.total_waypoints + sumWaypoints recs }, rc.2⟩ gs) ∧
    (∀ (tp : TrajectoryPlanner) (ik : IKSolver) (defs : List (String × String))
       (cur : List ℚ) (g : TDLGoal) (recs : List (Option PlanRecord)) (cur' : List ℚ),
      plan_goal tp ik defs cur g = .ok (some recs, cur') →
      cur' = recs.foldl cursorStep cur) ∧
    (∀ (tp : TrajectoryPlanner) (ik : IKSolver) (defs : List (String × String))
       (cur : List ℚ) (g : TDLGoal) (cur' : List ℚ),
      plan_goal tp ik defs cur g = .ok (none, cur') →
      ∃ (pre : List TDLCommand) (c : TDLCommand) (suf : List TDLCommand)
        (recs : List (Option PlanRecord)),
        g.commands = pre ++ c :: suf ∧
        plan_goal tp ik defs cur ⟨g.name, pre⟩ = .ok (some recs, cur') ∧
        cur' = recs.foldl cursorStep cur ∧
        plan_command tp ik defs cur' c = .ok none ∧
        is_motion_command c = true) := by
  refine ⟨?_, ?_, ?_, ?_⟩
  · intro tp ik prog
    refine ⟨?_, rfl⟩
    cases hpg : plan_goals tp ik prog.definitions initPlanState prog.goals with
    | error e => simp [plan_tdl_program, hpg, Except.map]
    | ok st => simp [plan_tdl_program, hpg, Except.map]
  · intro tp ik defs st g gs
    simp only [plan_goals]
  · intro tp ik defs cur g recs cur' h
    obtain ⟨suf, hr, hc⟩ := plan_goal_aux_cursor tp ik defs g.commands cur [] recs cur' h
    rw [hr]
    simpa using hc
  · intro tp ik defs cur g cur' h
    obtain ⟨pre, c, suf, recs, hsplit, hpre, hfail, hmot⟩ :=
      plan_goal_aux_abort_prefix tp ik defs g.commands cur [] cur' h
    refine ⟨pre, c, suf, recs, hsplit, hpre, ?_, hfail, hmot⟩
    obtain ⟨suf2, hr, hc⟩ := plan_goal_aux_cursor tp ik defs pre cur [] recs cur' hpre
    rw [hr]
    simpa using hc

/-- C2 (witness): planning `goalJ` (ending at `PosJ(90,0,0,0,0,0)`) from
the home configuration gives a cursor equal to the `cursorStep` fold of
its records; and planning `goalAbort` — the same motion followed by a
failing one — aborts yet returns that same cursor (not the home
configuration): the failed command left the cursor at its last successful
value. -/
theorem cursor_threading_witness :
    (plan_goal tpX ikX [] (List.replicate 6 0) goalJ = .ok (some recsJ, pgJ.2) ∧
      pgJ.2 = recsJ.foldl cursorStep (List.replicate 6 0)) ∧
    (plan_goal tpX ikX [] (List.replicate 6 0) goalAbort = .ok (none, pgJ.2) ∧
      pgJ.2 ≠ List.replicate 6 0 ∧
      ∃ (pre : List TDLCommand) (c : TDLCommand) (suf : List TDLCommand)
        (recs : List (Option PlanRecord)),
        goalAbort.commands = pre ++ c :: suf ∧
        plan_goal tpX ikX [] (List.replicate 6 0) ⟨goalAbort.name, pre⟩ =
          .ok (some recs, pgJ.2) ∧
        pgJ.2 = recs.foldl cursorStep (List.replicate 6 0) ∧
        plan_command tpX ikX [] pgJ.2 c = .ok none ∧
        is_motion_command c = true) :=
  ⟨⟨by decide,
    cursor_threading.2.2.1 tpX ikX [] (List.replicate 6 0) goalJ recsJ pgJ.2 (by decide)⟩,
   ⟨by decide, by decide,
    cursor_threading.2.2.2 tpX ikX [] (List.replicate 6 0) goalAbort pgJ.2 (by decide)⟩⟩
